import Mathlib

/-
Verification of the KidBank ledger engine.

This file is a shallow embedding of the repository's core modules
(`src/kidbank/currency.py`, `src/kidbank/accounts.py`, together with the
relevant schema facts of `src/kidbank/database.py`) and proofs of the
specified properties about them.

Modelling conventions:
* Monetary amounts are rationals: the source stores SQLite REAL values, but
  the specification treats them as exact decimal quantities, and all claims
  are about the exact arithmetic of the operations.
* The SQLite store is a record of lists; rowids are naturals handed out by
  counters starting at 1 (AUTOINCREMENT), and CURRENT_TIMESTAMP is a logical
  clock that strictly increases across statements, so the append log is
  strictly time-ordered.
* `random.randint` candidate generation is modelled by an explicit stream of
  candidate identifiers; the unbounded retry loop of
  `generate_account_number` becomes a search through that stream, with
  `none` modelling non-termination (stream exhausted).
* Python exceptions (`ValueError`) are modelled by `Except String` carrying
  the exact message text; a failing call leaves the database value
  untouched, matching the source, where every `raise` happens before the
  first write and the writes of one operation commit together.
-/

/-! ## Currency registry (`src/kidbank/currency.py`) -/

/-- A currency with its display properties, exactly the fields of
`currency.Currency.__init__`: code, full name, display symbol.  The class has
no further attributes (in particular no symbol-placement flag). -/
structure Currency where
  code : String
  name : String
  symbol : String
  deriving DecidableEq

/-- Round a rational to the nearest integer, ties to even: the rounding used
by Python `format(x, ',.2f')` on the decimal value. -/
def roundHalfEven (q : Rat) : Int :=
  let n := q.floor
  if q - n < 1/2 then n
  else if q - n > 1/2 then n + 1
  else if n % 2 = 0 then n else n + 1

/-- Insert a comma after every third character of a reversed digit list:
the thousands grouping of Python `f-string` formatting with `,`. -/
def groupRev : List Char → List Char
  | a :: b :: c :: d :: rest => a :: b :: c :: ',' :: groupRev (d :: rest)
  | l => l

/-- Render a natural with thousands separators, e.g. `1234567 ↦ "1,234,567"`. -/
def withCommas (n : Nat) : String :=
  String.mk ((groupRev (toString n).data.reverse).reverse)

/-- Zero-pad a two-digit cents value. -/
def twoPad (n : Nat) : String :=
  if n < 10 then "0" ++ toString n else toString n

/-- The rendering of `f"{amount:,.2f}"`: sign, thousands-grouped integer
part, and exactly two decimal places (round half to even). -/
def formatFixed2 (q : Rat) : String :=
  (if q < 0 then "-" else "") ++
  (let cents := (roundHalfEven (|q| * 100)).toNat
   withCommas (cents / 100) ++ "." ++ twoPad (cents % 100))

/-- `currency.Currency.format_amount`: the symbol is put before the number
when `self.code == "USD"`, and after the number (separated by a space) for
every other code. -/
def Currency.format_amount (c : Currency) (amount : Rat) : String :=
  if c.code = "USD" then c.symbol ++ formatFixed2 amount
  else formatFixed2 amount ++ " " ++ c.symbol

/-- The `CURRENCIES` table of `currency.py`: the two registered currencies,
keyed by code. -/
def CURRENCIES : List (String × Currency) :=
  [("USD", ⟨"USD", "US Dollars", "$"⟩),
   ("BB", ⟨"BB", "BrainBucks", "BB"⟩)]

/-- `currency.get_currency`: lookup by code, `ValueError` for an unknown
code. -/
def get_currency (code : String) : Except String Currency :=
  match (CURRENCIES.find? (fun p => p.1 == code)) with
  | some p => .ok p.2
  | none => .error ("Unknown currency: " ++ code)

/-- `currency.is_valid_currency`. -/
def is_valid_currency (code : String) : Bool :=
  CURRENCIES.any (fun p => p.1 == code)


/-! ## Ledger data model (`src/kidbank/database.py` schema)

The store is two tables.  `accounts` rows carry an AUTOINCREMENT internal
`id`, a UNIQUE `account_number`, the holder's names, type, currency, the
running `balance`, and a `created_at` timestamp; `transactions` rows carry
an internal `id`, the owning account's internal `account_id`, a
`transaction_type`, `amount`, `balance_after`, `description` and
`created_at`.  Timestamps are modelled as a logical clock that strictly
increases from statement to statement. -/

/-- A row of the `accounts` table. -/
structure Account where
  id : Nat
  account_number : String
  first_name : String
  last_name : String
  account_type : String
  currency : String
  balance : Rat
  created_at : Nat
  deriving DecidableEq

/-- A row of the `transactions` table. -/
structure Txn where
  id : Nat
  account_id : Nat
  transaction_type : String
  amount : Rat
  balance_after : Rat
  description : String
  created_at : Nat
  deriving DecidableEq

/-- The persistent store: the two tables plus the AUTOINCREMENT counters and
the logical clock. -/
structure DB where
  accounts : List Account
  transactions : List Txn
  nextAccountId : Nat
  nextTxnId : Nat
  clock : Nat
  deriving DecidableEq

/-- A freshly initialized store: empty tables, rowids start at 1. -/
def emptyDB : DB :=
  { accounts := [], transactions := [], nextAccountId := 1, nextTxnId := 1, clock := 0 }

/-- A value of a Python result dictionary returned by the account-manager
operations. -/
inductive Value where
  | int : Nat → Value
  | str : String → Value
  | rat : Rat → Value
  deriving DecidableEq

/-! ## Ledger operations (`src/kidbank/accounts.py`) -/

/-- `AccountManager.get_account`: the first `accounts` row whose
`account_number` matches, if any. -/
def get_account (db : DB) (account_number : String) : Option Account :=
  db.accounts.find? (fun a => a.account_number == account_number)

/-- `AccountManager.generate_account_number`: draw candidates from the
random stream and return the first one that no existing account uses.  The
Python loop is unbounded; exhausting the explicit candidate stream (`none`)
models its divergence. -/
def generate_account_number (cands : List String) (db : DB) : Option String :=
  cands.find? (fun number =>
    (db.accounts.find? (fun a => a.account_number == number)).isNone)

/-- `AccountManager.create_account`: validate the five argument conditions
in source order (each failure raises `ValueError` with the source's
message), generate a fresh account number, insert the account row, and — if
`initial_deposit > 0` — record the initial-deposit transaction in the same
commit.  Returns the result dictionary of the source, key for key. -/
def create_account (cands : List String) (db : DB)
    (first_name last_name account_type currency : String) (initial_deposit : Rat) :
    Option (Except String (DB × List (String × Value))) :=
  if first_name = "" ∨ first_name.trim = "" then
    some (.error "First name is required")
  else if last_name = "" ∨ last_name.trim = "" then
    some (.error "Last name is required")
  else if ¬ (account_type = "checking" ∨ account_type = "savings") then
    some (.error "Account type must be \x27checking\x27 or \x27savings\x27")
  else if ¬ is_valid_currency currency then
    some (.error ("Invalid currency: " ++ currency))
  else if initial_deposit < 0 then
    some (.error "Initial deposit cannot be negative")
  else
    match generate_account_number cands db with
    | none => none
    | some number =>
      let account_id := db.nextAccountId
      let acct : Account :=
        { id := account_id, account_number := number,
          first_name := first_name.trim, last_name := last_name.trim,
          account_type := account_type, currency := currency,
          balance := initial_deposit, created_at := db.clock }
      let initTxns : List Txn :=
        if 0 < initial_deposit then
          [{ id := db.nextTxnId, account_id := account_id,
             transaction_type := "deposit", amount := initial_deposit,
             balance_after := initial_deposit, description := "Initial deposit",
             created_at := db.clock + 1 }]
        else []
      some (.ok
        ({ accounts := db.accounts ++ [acct],
           transactions := db.transactions ++ initTxns,
           nextAccountId := db.nextAccountId + 1,
           nextTxnId := db.nextTxnId + initTxns.length,
           clock := db.clock + 2 },
         [("id", .int account_id),
          ("account_number", .str number),
          ("first_name", .str first_name.trim),
          ("last_name", .str last_name.trim),
          ("account_type", .str account_type),
          ("currency", .str currency),
          ("balance", .rat initial_deposit)]))

/-- The row transformation of `UPDATE accounts SET balance = ? WHERE
account_number = ?`: set the balance of every row carrying the requested
account number, leave the others alone. -/
def updBal (num : String) (nb : Rat) (a : Account) : Account :=
  if a.account_number == num then { a with balance := nb } else a

/-- `AccountManager.deposit`: positive-amount check, then account lookup,
then the atomic balance update (`UPDATE … WHERE account_number = ?`) plus
transaction append.  Returns the source's result dictionary. -/
def deposit (db : DB) (account_number : String) (amount : Rat) (description : String) :
    Except String (DB × List (String × Value)) :=
  if amount ≤ 0 then .error "Deposit amount must be positive"
  else match get_account db account_number with
  | none => .error ("Account " ++ account_number ++ " not found")
  | some account =>
    let new_balance := account.balance + amount
    .ok
      ({ accounts := db.accounts.map (updBal account_number new_balance),
         transactions := db.transactions ++
           [{ id := db.nextTxnId, account_id := account.id,
              transaction_type := "deposit", amount := amount,
              balance_after := new_balance,
              description := if description = "" then "Deposit" else description,
              created_at := db.clock }],
         nextAccountId := db.nextAccountId,
         nextTxnId := db.nextTxnId + 1,
         clock := db.clock + 1 },
       [("account_number", .str account_number),
        ("transaction_type", .str "deposit"),
        ("amount", .rat amount),
        ("new_balance", .rat new_balance)])

/-- `AccountManager.withdraw`: positive-amount check, account lookup,
insufficient-funds check, then the same atomic update-plus-append as
`deposit`, with kind `withdrawal`. -/
def withdraw (db : DB) (account_number : String) (amount : Rat) (description : String) :
    Except String (DB × List (String × Value)) :=
  if amount ≤ 0 then .error "Withdrawal amount must be positive"
  else match get_account db account_number with
  | none => .error ("Account " ++ account_number ++ " not found")
  | some account =>
    if account.balance < amount then .error "Insufficient funds"
    else
      let new_balance := account.balance - amount
      .ok
        ({ accounts := db.accounts.map (updBal account_number new_balance),
           transactions := db.transactions ++
             [{ id := db.nextTxnId, account_id := account.id,
                transaction_type := "withdrawal", amount := amount,
                balance_after := new_balance,
                description := if description = "" then "Withdrawal" else description,
                created_at := db.clock }],
           nextAccountId := db.nextAccountId,
           nextTxnId := db.nextTxnId + 1,
           clock := db.clock + 1 },
         [("account_number", .str account_number),
          ("transaction_type", .str "withdrawal"),
          ("amount", .rat amount),
          ("new_balance", .rat new_balance)])

/-- The rows produced by the `JOIN` of `get_transactions`: transactions
whose owning account carries the requested public account number. -/
def txnsByNumber (db : DB) (account_number : String) : List Txn :=
  db.transactions.filter (fun t =>
    db.accounts.any (fun a => a.id == t.account_id && a.account_number == account_number))

/-- Insert a transaction into a list kept in descending `created_at` order. -/
def insertDesc (t : Txn) : List Txn → List Txn
  | [] => [t]
  | u :: rest =>
    if t.created_at ≤ u.created_at then u :: insertDesc t rest else t :: u :: rest

/-- `ORDER BY t.created_at DESC`: sort rows by timestamp, most recent
first. -/
def sortByCreatedDesc : List Txn → List Txn
  | [] => []
  | t :: rest => insertDesc t (sortByCreatedDesc rest)

/-- `AccountManager.get_transactions`: the joined rows, most recent first,
at most `limit` of them (`LIMIT ?`). -/
def get_transactions (db : DB) (account_number : String) (limit : Nat) : List Txn :=
  (sortByCreatedDesc (txnsByNumber db account_number)).take limit

/-! ## Operation sequences

A caller-visible operation of the ledger engine.  `step` applies one
operation to the store: a raised `ValueError` propagates to the caller
before any write has happened, so on any failure (and on divergence of the
identifier retry loop) the store is unchanged. -/

/-- One ledger-engine call, with the data the caller supplies (for account
creation this includes the stream of random identifier candidates). -/
inductive Op where
  | create (cands : List String) (first_name last_name account_type currency : String)
      (initial_deposit : Rat)
  | deposit (account_number : String) (amount : Rat) (description : String)
  | withdraw (account_number : String) (amount : Rat) (description : String)

/-- Apply one operation to the store. -/
def step (db : DB) : Op → DB
  | .create cands fn ln ty cur init =>
    match create_account cands db fn ln ty cur init with
    | some (.ok (db', _)) => db'
    | _ => db
  | .deposit num amount d =>
    match deposit db num amount d with
    | .ok (db', _) => db'
    | .error _ => db
  | .withdraw num amount d =>
    match withdraw db num amount d with
    | .ok (db', _) => db'
    | .error _ => db

/-- Run a sequence of operations against a freshly initialized store. -/
def run (ops : List Op) : DB := ops.foldl step emptyDB

/-- The transactions owned by internal account id `aid`, in insertion
(append-log) order. -/
def acctTxns (db : DB) (aid : Nat) : List Txn :=
  db.transactions.filter (fun t => t.account_id == aid)

/-- Total amount of the deposit transactions in a list. -/
def depositSum (ts : List Txn) : Rat :=
  ((ts.filter (fun t => t.transaction_type == "deposit")).map (fun t => t.amount)).sum

/-- Total amount of the withdrawal transactions in a list. -/
def withdrawalSum (ts : List Txn) : Rat :=
  ((ts.filter (fun t => t.transaction_type == "withdrawal")).map (fun t => t.amount)).sum

/-- The keys of the dictionary a successful `create_account` returns. -/
def createResultKeys (r : Option (Except String (DB × List (String × Value)))) :
    Option (List String) :=
  match r with
  | some (.ok (_, res)) => some (res.map Prod.fst)
  | _ => none

/-- Scenario 1 of the specification: create (Alice, Lee, checking, USD, 0),
deposit 100, withdraw 30. -/
def ops0 : List Op :=
  [.create ["123456"] "Alice" "Lee" "checking" "USD" 0,
   .deposit "123456" 100 "",
   .withdraw "123456" 30 ""]

/-- The state of the Scenario 1 account after the three operations. -/
def alice70 : Account :=
  { id := 1, account_number := "123456", first_name := "Alice", last_name := "Lee",
    account_type := "checking", currency := "USD", balance := 70, created_at := 0 }


/-! ## Success shapes of the three mutating operations -/

/-- The account row inserted by a successful `create_account`. -/
def newAccount (db : DB) (number fn ln ty cur : String) (init : Rat) : Account :=
  { id := db.nextAccountId, account_number := number, first_name := fn.trim,
    last_name := ln.trim, account_type := ty, currency := cur,
    balance := init, created_at := db.clock }

/-- The initial-deposit transactions of `create_account` (one row when
`initial_deposit > 0`, none otherwise). -/
def initDepositTxns (db : DB) (init : Rat) : List Txn :=
  if 0 < init then
    [{ id := db.nextTxnId, account_id := db.nextAccountId, transaction_type := "deposit",
       amount := init, balance_after := init, description := "Initial deposit",
       created_at := db.clock + 1 }]
  else []

/-- The store after a successful `create_account`. -/
def createdDB (db : DB) (number fn ln ty cur : String) (init : Rat) : DB :=
  { accounts := db.accounts ++ [newAccount db number fn ln ty cur init],
    transactions := db.transactions ++ initDepositTxns db init,
    nextAccountId := db.nextAccountId + 1,
    nextTxnId := db.nextTxnId + (initDepositTxns db init).length,
    clock := db.clock + 2 }

/-- The result dictionary of a successful `create_account`. -/
def createdRes (db : DB) (number fn ln ty cur : String) (init : Rat) : List (String × Value) :=
  [("id", .int db.nextAccountId), ("account_number", .str number),
   ("first_name", .str fn.trim), ("last_name", .str ln.trim),
   ("account_type", .str ty), ("currency", .str cur), ("balance", .rat init)]

/-- The store after the atomic update-plus-append of a successful `deposit`
or `withdraw`. -/
def appliedDB (db : DB) (num : String) (account : Account) (kind : String)
    (amount nb : Rat) (descr : String) : DB :=
  { accounts := db.accounts.map (updBal num nb),
    transactions := db.transactions ++
      [{ id := db.nextTxnId, account_id := account.id, transaction_type := kind,
         amount := amount, balance_after := nb, description := descr,
         created_at := db.clock }],
    nextAccountId := db.nextAccountId,
    nextTxnId := db.nextTxnId + 1,
    clock := db.clock + 1 }

/-! ## The ledger invariant

The well-formedness facts that hold of every store reachable from
`emptyDB`: rowid discipline, identifier uniqueness, a strictly
time-ordered append log, and the balance/history consistency properties of
the specification. -/

/-- The invariant of reachable ledger states. -/
structure LedgerInv (db : DB) : Prop where
  ids_lt : ∀ a ∈ db.accounts, a.id < db.nextAccountId
  ids_nodup : (db.accounts.map Account.id).Nodup
  nums_nodup : (db.accounts.map Account.account_number).Nodup
  txn_ids_lt : ∀ t ∈ db.transactions, t.account_id < db.nextAccountId
  times_lt : ∀ t ∈ db.transactions, t.created_at < db.clock
  times_sorted : db.transactions.Pairwise (fun t u => t.created_at < u.created_at)
  conserve : ∀ a ∈ db.accounts,
    a.balance = depositSum (acctTxns db a.id) - withdrawalSum (acctTxns db a.id)
  last_bal : ∀ a ∈ db.accounts,
    a.balance = ((acctTxns db a.id).getLast?.elim 0 Txn.balance_after)
  nonneg : ∀ a ∈ db.accounts, 0 ≤ a.balance

theorem LedgerInv_emptyDB : LedgerInv emptyDB := by
  constructor <;> simp [emptyDB]

theorem updBal_id (num : String) (nb : Rat) (a : Account) : (updBal num nb a).id = a.id := by
  unfold updBal; split <;> rfl

theorem updBal_number (num : String) (nb : Rat) (a : Account) :
    (updBal num nb a).account_number = a.account_number := by
  unfold updBal; split <;> rfl

theorem map_updBal_id (l : List Account) (num : String) (nb : Rat) :
    (l.map (updBal num nb)).map Account.id = l.map Account.id := by
  simp [List.map_map, Function.comp, updBal_id]

theorem map_updBal_number (l : List Account) (num : String) (nb : Rat) :
    (l.map (updBal num nb)).map Account.account_number = l.map Account.account_number := by
  simp [List.map_map, Function.comp, updBal_number]

theorem find?_map_updBal {l : List Account} {num : String} {account : Account} (nb : Rat)
    (hfind : l.find? (fun a => a.account_number == num) = some account) :
    (l.map (updBal num nb)).find? (fun a => a.account_number == num)
      = some { account with balance := nb } := by
  induction l with
  | nil => simp at hfind
  | cons x xs ih =>
    by_cases hx : x.account_number == num
    · obtain rfl : x = account := by simpa [List.find?, hx] using hfind
      simp [List.map_cons, List.find?, updBal, hx]
    · have hxf : (x.account_number == num) = false := by simpa using hx
      have hfind' : xs.find? (fun a => a.account_number == num) = some account := by
        simpa [List.find?, hxf] using hfind
      have hupd : ((updBal num nb x).account_number == num) = false := by
        simpa [updBal_number] using hx
      simpa [List.map_cons, List.find?, hupd] using ih hfind'

/-- Sum lemmas for the transaction log. -/
theorem depositSum_append (ts us : List Txn) :
    depositSum (ts ++ us) = depositSum ts + depositSum us := by
  simp [depositSum, List.filter_append]

theorem withdrawalSum_append (ts us : List Txn) :
    withdrawalSum (ts ++ us) = withdrawalSum ts + withdrawalSum us := by
  simp [withdrawalSum, List.filter_append]

theorem depositSum_deposit_single (t : Txn) (h : t.transaction_type = "deposit") :
    depositSum [t] = t.amount := by
  simp [depositSum, List.filter, h]

theorem withdrawalSum_deposit_single (t : Txn) (h : t.transaction_type = "deposit") :
    withdrawalSum [t] = 0 := by
  simp [withdrawalSum, List.filter, h]

theorem depositSum_withdrawal_single (t : Txn) (h : t.transaction_type = "withdrawal") :
    depositSum [t] = 0 := by
  simp [depositSum, List.filter, h]

theorem withdrawalSum_withdrawal_single (t : Txn) (h : t.transaction_type = "withdrawal") :
    withdrawalSum [t] = t.amount := by
  simp [withdrawalSum, List.filter, h]

theorem acctTxns_append (db db' : DB) (us : List Txn)
    (h : db'.transactions = db.transactions ++ us) (aid : Nat) :
    acctTxns db' aid = acctTxns db aid ++ us.filter (fun t => t.account_id == aid) := by
  simp [acctTxns, h, List.filter_append]

theorem create_account_eq_ok {cands : List String} {db : DB} {fn ln ty cur : String}
    {init : Rat} {number : String}
    (h1 : ¬ (fn = "" ∨ fn.trim = "")) (h2 : ¬ (ln = "" ∨ ln.trim = ""))
    (h3 : ty = "checking" ∨ ty = "savings") (h4 : is_valid_currency cur = true)
    (h5 : ¬ init < 0) (hg : generate_account_number cands db = some number) :
    create_account cands db fn ln ty cur init
      = some (.ok (createdDB db number fn ln ty cur init,
                   createdRes db number fn ln ty cur init)) := by
  simp [create_account, h1, h2, h3, h4, h5, hg, createdDB, createdRes, newAccount,
    initDepositTxns]

theorem create_account_ok {cands : List String} {db : DB} {fn ln ty cur : String}
    {init : Rat} {db' : DB} {res : List (String × Value)}
    (h : create_account cands db fn ln ty cur init = some (.ok (db', res))) :
    ¬ (fn = "" ∨ fn.trim = "") ∧ ¬ (ln = "" ∨ ln.trim = "")
    ∧ (ty = "checking" ∨ ty = "savings") ∧ is_valid_currency cur = true ∧ ¬ init < 0
    ∧ ∃ number, generate_account_number cands db = some number
        ∧ db' = createdDB db number fn ln ty cur init
        ∧ res = createdRes db number fn ln ty cur init := by
  by_cases h1 : (fn = "" ∨ fn.trim = "")
  · simp [create_account, h1] at h
  by_cases h2 : (ln = "" ∨ ln.trim = "")
  · simp [create_account, h1, h2] at h
  by_cases h3 : (ty = "checking" ∨ ty = "savings")
  case neg => simp [create_account, h1, h2, h3] at h
  by_cases h4 : is_valid_currency cur = true
  case neg => simp [create_account, h1, h2, h3, h4] at h
  by_cases h5 : init < 0
  · simp [create_account, h1, h2, h3, h4, h5] at h
  cases hg : generate_account_number cands db with
  | none => simp [create_account, h1, h2, h3, h4, h5, hg] at h
  | some number =>
    have heq := (create_account_eq_ok h1 h2 h3 h4 h5 hg).symm.trans h
    have hpair : createdDB db number fn ln ty cur init = db'
        ∧ createdRes db number fn ln ty cur init = res := by
      simpa using heq
    exact ⟨h1, h2, h3, h4, h5, number, rfl, hpair.1.symm, hpair.2.symm⟩

theorem deposit_ok {db : DB} {num : String} {amount : Rat} {d : String} {db' : DB}
    {res : List (String × Value)}
    (h : deposit db num amount d = .ok (db', res)) :
    0 < amount ∧ ∃ account, get_account db num = some account ∧
      db' = appliedDB db num account "deposit" amount (account.balance + amount)
              (if d = "" then "Deposit" else d) := by
  by_cases hle : amount ≤ 0
  · simp [deposit, hle] at h
  cases hacc : get_account db num with
  | none => simp [deposit, hle, hacc] at h
  | some account =>
    refine ⟨lt_of_not_le hle, account, rfl, ?_⟩
    have hpair : (appliedDB db num account "deposit" amount (account.balance + amount)
          (if d = "" then "Deposit" else d) = db')
        ∧ [("account_number", Value.str num), ("transaction_type", Value.str "deposit"),
           ("amount", Value.rat amount),
           ("new_balance", Value.rat (account.balance + amount))] = res := by
      simpa [deposit, hle, hacc, appliedDB] using h
    exact hpair.1.symm

theorem withdraw_ok {db : DB} {num : String} {amount : Rat} {d : String} {db' : DB}
    {res : List (String × Value)}
    (h : withdraw db num amount d = .ok (db', res)) :
    0 < amount ∧ ∃ account, get_account db num = some account
      ∧ ¬ account.balance < amount ∧
      db' = appliedDB db num account "withdrawal" amount (account.balance - amount)
              (if d = "" then "Withdrawal" else d) := by
  by_cases hle : amount ≤ 0
  · simp [withdraw, hle] at h
  cases hacc : get_account db num with
  | none => simp [withdraw, hle, hacc] at h
  | some account =>
    by_cases hb : account.balance < amount
    · simp [withdraw, hle, hacc, hb] at h
    refine ⟨lt_of_not_le hle, account, rfl, hb, ?_⟩
    have hpair : (appliedDB db num account "withdrawal" amount (account.balance - amount)
          (if d = "" then "Withdrawal" else d) = db')
        ∧ [("account_number", Value.str num), ("transaction_type", Value.str "withdrawal"),
           ("amount", Value.rat amount),
           ("new_balance", Value.rat (account.balance - amount))] = res := by
      simpa [withdraw, hle, hacc, hb, appliedDB] using h
    exact hpair.1.symm

/-! ## Preservation of the invariant -/

theorem get_account_mem {db : DB} {num : String} {account : Account}
    (h : get_account db num = some account) : account ∈ db.accounts :=
  List.mem_of_find?_eq_some h

theorem get_account_number_eq {db : DB} {num : String} {account : Account}
    (h : get_account db num = some account) : account.account_number = num := by
  simpa using List.find?_some h

theorem updBal_eq_self {num : String} {nb : Rat} {b : Account}
    (h : (b.account_number == num) = false) : updBal num nb b = b := by
  simp [updBal, h]

theorem updBal_eq_set {num : String} {nb : Rat} {b : Account}
    (h : (b.account_number == num) = true) : updBal num nb b = { b with balance := nb } := by
  simp [updBal, h]

theorem LedgerInv_appliedDB {db : DB} {num : String} {account : Account}
    {amount nb : Rat} {descr : String} {kind : String} (inv : LedgerInv db)
    (hacc : get_account db num = some account)
    (hnb : 0 ≤ nb)
    (hkind : (kind = "deposit" ∧ nb = account.balance + amount)
           ∨ (kind = "withdrawal" ∧ nb = account.balance - amount)) :
    LedgerInv (appliedDB db num account kind amount nb descr) := by
  have haccmem : account ∈ db.accounts := get_account_mem hacc
  have haccnum : account.account_number = num := get_account_number_eq hacc
  have hmem : ∀ a' ∈ (appliedDB db num account kind amount nb descr).accounts,
      ∃ b ∈ db.accounts, a' = updBal num nb b := by
    intro a' ha'
    obtain ⟨b, hb, hba⟩ := List.mem_map.mp (by simpa [appliedDB] using ha')
    exact ⟨b, hb, hba.symm⟩
  have htx : ∀ aid, acctTxns (appliedDB db num account kind amount nb descr) aid
      = acctTxns db aid ++
        (if (account.id == aid) then
          [{ id := db.nextTxnId, account_id := account.id, transaction_type := kind,
             amount := amount, balance_after := nb, description := descr,
             created_at := db.clock }] else []) := by
    intro aid
    rw [acctTxns_append db _ _ rfl aid]
    congr 1
    simp [List.filter_singleton]
  have hbeq : ∀ b ∈ db.accounts, (b.account_number == num) = true → b = account := by
    intro b hb hbn
    exact List.inj_on_of_nodup_map inv.nums_nodup hb haccmem (by
      rw [haccnum]; simpa using hbn)
  have hbne : ∀ b ∈ db.accounts, (b.account_number == num) = false → account.id ≠ b.id := by
    intro b hb hbn heq
    have hba : account = b := List.inj_on_of_nodup_map inv.ids_nodup haccmem hb heq
    rw [← hba] at hbn
    simp [haccnum] at hbn
  have hch : acctTxns (appliedDB db num account kind amount nb descr) account.id
      = acctTxns db account.id ++
        [{ id := db.nextTxnId, account_id := account.id, transaction_type := kind,
           amount := amount, balance_after := nb, description := descr,
           created_at := db.clock }] := by
    rw [htx account.id]
    simp
  constructor
  case ids_lt =>
    intro a' ha'
    obtain ⟨b, hb, rfl⟩ := hmem a' ha'
    simpa [appliedDB, updBal_id] using inv.ids_lt b hb
  case ids_nodup =>
    have hcomp : Account.id ∘ updBal num nb = Account.id := funext (updBal_id num nb)
    simpa [appliedDB, List.map_map, hcomp] using inv.ids_nodup
  case nums_nodup =>
    have hcomp : Account.account_number ∘ updBal num nb = Account.account_number :=
      funext (updBal_number num nb)
    simpa [appliedDB, List.map_map, hcomp] using inv.nums_nodup
  case txn_ids_lt =>
    intro t ht
    simp only [appliedDB, List.mem_append, List.mem_singleton] at ht
    rcases ht with ht | rfl
    · exact inv.txn_ids_lt t ht
    · simpa [appliedDB] using inv.ids_lt account haccmem
  case times_lt =>
    intro t ht
    simp only [appliedDB, List.mem_append, List.mem_singleton] at ht
    rcases ht with ht | rfl
    · have := inv.times_lt t ht
      simp only [appliedDB]
      omega
    · simp [appliedDB]
  case times_sorted =>
    simp only [appliedDB]
    rw [List.pairwise_append]
    refine ⟨inv.times_sorted, by simp, ?_⟩
    intro t ht u hu
    rw [List.mem_singleton] at hu
    subst hu
    simpa using inv.times_lt t ht
  case conserve =>
    intro a' ha'
    obtain ⟨b, hb, rfl⟩ := hmem a' ha'
    rcases Bool.eq_false_or_eq_true (b.account_number == num) with hbn | hbn
    · -- the updated row: b is the account found by the lookup
      have hba : b = account := hbeq b hb hbn
      rw [updBal_eq_set hbn, hba]
      show nb = depositSum (acctTxns (appliedDB db num account kind amount nb descr) account.id)
        - withdrawalSum (acctTxns (appliedDB db num account kind amount nb descr) account.id)
      have hcons := inv.conserve account haccmem
      rcases hkind with ⟨rfl, rfl⟩ | ⟨rfl, rfl⟩
      · rw [hch, depositSum_append, withdrawalSum_append,
          depositSum_deposit_single _ rfl, withdrawalSum_deposit_single _ rfl, hcons]
        ring
      · rw [hch, depositSum_append, withdrawalSum_append,
          depositSum_withdrawal_single _ rfl, withdrawalSum_withdrawal_single _ rfl, hcons]
        ring
    · -- rows with another account number are untouched
      have hne := hbne b hb hbn
      have hunch : acctTxns (appliedDB db num account kind amount nb descr) b.id
          = acctTxns db b.id := by
        rw [htx b.id]
        simp [hne]
      rw [updBal_eq_self hbn, hunch]
      exact inv.conserve b hb
  case last_bal =>
    intro a' ha'
    obtain ⟨b, hb, rfl⟩ := hmem a' ha'
    rcases Bool.eq_false_or_eq_true (b.account_number == num) with hbn | hbn
    · have hba : b = account := hbeq b hb hbn
      rw [updBal_eq_set hbn, hba]
      show nb = ((acctTxns (appliedDB db num account kind amount nb descr)
        account.id).getLast?.elim 0 Txn.balance_after)
      rw [hch, List.getLast?_concat]
      rfl
    · have hne := hbne b hb hbn
      have hunch : acctTxns (appliedDB db num account kind amount nb descr) b.id
          = acctTxns db b.id := by
        rw [htx b.id]
        simp [hne]
      rw [updBal_eq_self hbn, hunch]
      exact inv.last_bal b hb
  case nonneg =>
    intro a' ha'
    obtain ⟨b, hb, rfl⟩ := hmem a' ha'
    unfold updBal
    split
    · exact hnb
    · exact inv.nonneg b hb

theorem LedgerInv_deposit {db : DB} {num : String} {amount : Rat} {d : String} {db' : DB}
    {res : List (String × Value)} (inv : LedgerInv db)
    (h : deposit db num amount d = .ok (db', res)) : LedgerInv db' := by
  obtain ⟨hpos, account, hacc, rfl⟩ := deposit_ok h
  exact LedgerInv_appliedDB inv hacc
    (add_nonneg (inv.nonneg account (get_account_mem hacc)) (le_of_lt hpos))
    (Or.inl ⟨rfl, rfl⟩)

theorem LedgerInv_withdraw {db : DB} {num : String} {amount : Rat} {d : String} {db' : DB}
    {res : List (String × Value)} (inv : LedgerInv db)
    (h : withdraw db num amount d = .ok (db', res)) : LedgerInv db' := by
  obtain ⟨hpos, account, hacc, hble, rfl⟩ := withdraw_ok h
  exact LedgerInv_appliedDB inv hacc
    (sub_nonneg.mpr (not_lt.mp hble))
    (Or.inr ⟨rfl, rfl⟩)

theorem generate_fresh {cands : List String} {db : DB} {number : String}
    (h : generate_account_number cands db = some number) :
    ∀ a ∈ db.accounts, a.account_number ≠ number := by
  have hp := List.find?_some h
  rw [Option.isNone_iff_eq_none, List.find?_eq_none] at hp
  intro a ha heq
  exact absurd (by simpa using heq) (hp a ha)

theorem generate_mem {cands : List String} {db : DB} {number : String}
    (h : generate_account_number cands db = some number) : number ∈ cands :=
  List.mem_of_find?_eq_some h

theorem LedgerInv_createdDB {db : DB} {number fn ln ty cur : String} {init : Rat}
    (inv : LedgerInv db)
    (hfresh : ∀ a ∈ db.accounts, a.account_number ≠ number)
    (hinit : 0 ≤ init) :
    LedgerInv (createdDB db number fn ln ty cur init) := by
  have hAid : (newAccount db number fn ln ty cur init).id = db.nextAccountId := rfl
  have hold : acctTxns db db.nextAccountId = [] := by
    rw [acctTxns, List.filter_eq_nil_iff]
    intro t ht
    have := inv.txn_ids_lt t ht
    simp
    omega
  have htxA : acctTxns (createdDB db number fn ln ty cur init) db.nextAccountId
      = initDepositTxns db init := by
    rw [acctTxns_append db _ _ rfl, hold, List.nil_append]
    by_cases h0 : 0 < init
    · simp [initDepositTxns, h0]
    · simp [initDepositTxns, h0]
  have htxOld : ∀ b ∈ db.accounts,
      acctTxns (createdDB db number fn ln ty cur init) b.id = acctTxns db b.id := by
    intro b hb
    rw [acctTxns_append db _ _ rfl]
    have hbne : b.id ≠ db.nextAccountId := Nat.ne_of_lt (inv.ids_lt b hb)
    by_cases h0 : 0 < init
    · simp [initDepositTxns, h0]
      omega
    · simp [initDepositTxns, h0]
  have hmem : ∀ a' ∈ (createdDB db number fn ln ty cur init).accounts,
      a' ∈ db.accounts ∨ a' = newAccount db number fn ln ty cur init := by
    intro a' ha'
    simpa [createdDB, List.mem_append] using ha'
  constructor
  case ids_lt =>
    intro a' ha'
    rcases hmem a' ha' with hb | rfl
    · have := inv.ids_lt a' hb
      simp only [createdDB]
      omega
    · simp [createdDB, newAccount]
  case ids_nodup =>
    simp only [createdDB, List.map_append]
    rw [List.nodup_append]
    refine ⟨inv.ids_nodup, by simp, ?_⟩
    intro x hx
    obtain ⟨b, hb, rfl⟩ := List.mem_map.mp hx
    have := inv.ids_lt b hb
    simp [newAccount]
    omega
  case nums_nodup =>
    simp only [createdDB, List.map_append]
    rw [List.nodup_append]
    refine ⟨inv.nums_nodup, by simp, ?_⟩
    intro x hx
    obtain ⟨b, hb, rfl⟩ := List.mem_map.mp hx
    simpa [newAccount] using hfresh b hb
  case txn_ids_lt =>
    intro t ht
    simp only [createdDB, List.mem_append] at ht
    rcases ht with ht | ht
    · have := inv.txn_ids_lt t ht
      simp only [createdDB]
      omega
    · by_cases h0 : 0 < init
      · simp [initDepositTxns, h0] at ht
        subst ht
        simp [createdDB]
      · simp [initDepositTxns, h0] at ht
  case times_lt =>
    intro t ht
    simp only [createdDB, List.mem_append] at ht
    rcases ht with ht | ht
    · have := inv.times_lt t ht
      simp only [createdDB]
      omega
    · by_cases h0 : 0 < init
      · simp [initDepositTxns, h0] at ht
        subst ht
        simp [createdDB]
      · simp [initDepositTxns, h0] at ht
  case times_sorted =>
    simp only [createdDB]
    rw [List.pairwise_append]
    refine ⟨inv.times_sorted, ?_, ?_⟩
    · by_cases h0 : 0 < init <;> simp [initDepositTxns, h0]
    · intro t ht u hu
      have hlt := inv.times_lt t ht
      by_cases h0 : 0 < init
      · simp [initDepositTxns, h0] at hu
        subst hu
        simp
        omega
      · simp [initDepositTxns, h0] at hu
  case conserve =>
    intro a' ha'
    rcases hmem a' ha' with hb | rfl
    · rw [htxOld a' hb]
      exact inv.conserve a' hb
    · rw [hAid, htxA]
      show init = depositSum (initDepositTxns db init) - withdrawalSum (initDepositTxns db init)
      by_cases h0 : 0 < init
      · rw [initDepositTxns, if_pos h0, depositSum_deposit_single _ rfl,
          withdrawalSum_deposit_single _ rfl]
        ring
      · have hz : init = 0 := le_antisymm (not_lt.mp h0) hinit
        rw [initDepositTxns, if_neg h0]
        simp [depositSum, withdrawalSum, hz]
  case last_bal =>
    intro a' ha'
    rcases hmem a' ha' with hb | rfl
    · rw [htxOld a' hb]
      exact inv.last_bal a' hb
    · rw [hAid, htxA]
      show init = ((initDepositTxns db init).getLast?.elim 0 Txn.balance_after)
      by_cases h0 : 0 < init
      · rw [initDepositTxns, if_pos h0]
        rfl
      · have hz : init = 0 := le_antisymm (not_lt.mp h0) hinit
        rw [initDepositTxns, if_neg h0]
        simpa using hz
  case nonneg =>
    intro a' ha'
    rcases hmem a' ha' with hb | rfl
    · exact inv.nonneg a' hb
    · exact hinit

theorem LedgerInv_create {cands : List String} {db : DB} {fn ln ty cur : String}
    {init : Rat} {db' : DB} {res : List (String × Value)} (inv : LedgerInv db)
    (h : create_account cands db fn ln ty cur init = some (.ok (db', res))) :
    LedgerInv db' := by
  obtain ⟨h1, h2, h3, h4, h5, number, hg, rfl, -⟩ := create_account_ok h
  exact LedgerInv_createdDB inv (generate_fresh hg) (not_lt.mp h5)

theorem LedgerInv_step {db : DB} (inv : LedgerInv db) (op : Op) :
    LedgerInv (step db op) := by
  cases op with
  | create cands fn ln ty cur init =>
    simp only [step]
    rcases hc : create_account cands db fn ln ty cur init with _ | (e | ⟨db', res⟩)
    · exact inv
    · exact inv
    · exact LedgerInv_create inv hc
  | deposit num amount d =>
    simp only [step]
    rcases hd : deposit db num amount d with e | ⟨db', res⟩
    · exact inv
    · exact LedgerInv_deposit inv hd
  | withdraw num amount d =>
    simp only [step]
    rcases hw : withdraw db num amount d with e | ⟨db', res⟩
    · exact inv
    · exact LedgerInv_withdraw inv hw

theorem LedgerInv_foldl (ops : List Op) :
    ∀ db : DB, LedgerInv db → LedgerInv (ops.foldl step db) := by
  induction ops with
  | nil => intro db h; exact h
  | cons op rest ih =>
    intro db h
    exact ih _ (LedgerInv_step h op)

theorem LedgerInv_run (ops : List Op) : LedgerInv (run ops) :=
  LedgerInv_foldl ops emptyDB LedgerInv_emptyDB

/-! ## The ordering of `get_transactions` results -/

theorem insertDesc_of_le {t : Txn} {m : List Txn}
    (h : ∀ u ∈ m, t.created_at ≤ u.created_at) : insertDesc t m = m ++ [t] := by
  induction m with
  | nil => rfl
  | cons u rest ih =>
    simp only [insertDesc]
    rw [if_pos (h u (List.mem_cons_self u rest))]
    rw [ih (fun v hv => h v (List.mem_cons_of_mem u hv))]
    rfl

theorem sortByCreatedDesc_of_sorted {l : List Txn}
    (h : l.Pairwise (fun t u => t.created_at < u.created_at)) :
    sortByCreatedDesc l = l.reverse := by
  induction l with
  | nil => rfl
  | cons t rest ih =>
    rw [sortByCreatedDesc, ih (List.Pairwise.of_cons h)]
    rw [insertDesc_of_le (fun u hu => le_of_lt
      (List.rel_of_pairwise_cons h (List.mem_reverse.mp hu)))]
    simp

theorem txnsByNumber_sorted {db : DB} (inv : LedgerInv db) (num : String) :
    (txnsByNumber db num).Pairwise (fun t u => t.created_at < u.created_at) :=
  List.Pairwise.sublist (List.filter_sublist _) inv.times_sorted

theorem get_transactions_eq {db : DB} (inv : LedgerInv db) (num : String) (limit : Nat) :
    get_transactions db num limit = (txnsByNumber db num).reverse.take limit := by
  rw [get_transactions, sortByCreatedDesc_of_sorted (txnsByNumber_sorted inv num)]

theorem get_transactions_sorted {db : DB} (inv : LedgerInv db) (num : String) (limit : Nat) :
    (get_transactions db num limit).Pairwise (fun t u => u.created_at < t.created_at) := by
  rw [get_transactions_eq inv]
  refine List.Pairwise.sublist (List.take_sublist _ _) ?_
  rw [List.pairwise_reverse]
  exact txnsByNumber_sorted inv num

/-! ## The claims -/

/-- Claim C2: for every account, after any sequence of
create/deposit/withdraw operations, the stored balance equals the sum of the
amounts of that account's deposit transactions minus the sum of the amounts
of its withdrawal transactions. -/
theorem C2_conservation (ops : List Op) (a : Account) (ha : a ∈ (run ops).accounts) :
    a.balance = depositSum (acctTxns (run ops) a.id)
      - withdrawalSum (acctTxns (run ops) a.id) :=
  (LedgerInv_run ops).conserve a ha

/-- Witness for C2 at Scenario 1: Alice's account holds 70 after depositing
100 and withdrawing 30, and 70 = 100 - 30 over its transaction history. -/
theorem C2_conservation_witness :
    alice70 ∈ (run ops0).accounts
    ∧ alice70.balance = depositSum (acctTxns (run ops0) alice70.id)
        - withdrawalSum (acctTxns (run ops0) alice70.id) :=
  ⟨by with_unfolding_all decide,
   C2_conservation ops0 alice70 (by with_unfolding_all decide)⟩

/-- Claim C3: for every account, after every operation, the balance field
equals the `balance_after` field of the most recently recorded transaction
of that account (the last entry of its strictly time-ordered append log),
or zero if the account has no transactions. -/
theorem C3_balance_matches_last (ops : List Op) (a : Account)
    (ha : a ∈ (run ops).accounts) :
    a.balance = ((acctTxns (run ops) a.id).getLast?.elim 0 Txn.balance_after) :=
  (LedgerInv_run ops).last_bal a ha

/-- Witness for C3 at Scenario 1: Alice's balance 70 equals the
`balance_after` of her most recent transaction. -/
theorem C3_balance_matches_last_witness :
    alice70 ∈ (run ops0).accounts
    ∧ alice70.balance = ((acctTxns (run ops0) alice70.id).getLast?.elim 0 Txn.balance_after) :=
  ⟨by with_unfolding_all decide,
   C3_balance_matches_last ops0 alice70 (by with_unfolding_all decide)⟩

/-- Claim C1: for every existing account and amount > 0, `withdraw` fails
with InsufficientFunds exactly when the balance is strictly below the
amount; on that failure the store (balances and transaction history) is
unchanged; a successful withdrawal leaves balance `old - amount`; every
reachable balance is non-negative; and withdrawing the exact full balance
succeeds and leaves balance 0. -/
theorem C1_withdraw_safety (ops : List Op) (num : String) (amount : Rat) (d : String)
    (a : Account) (hacc : get_account (run ops) num = some a) (hpos : 0 < amount) :
    ((withdraw (run ops) num amount d = .error "Insufficient funds") ↔ a.balance < amount)
    ∧ (a.balance < amount → step (run ops) (.withdraw num amount d) = run ops)
    ∧ (¬ a.balance < amount →
        ∃ db' res, withdraw (run ops) num amount d = .ok (db', res)
          ∧ get_account db' num = some { a with balance := a.balance - amount })
    ∧ (∀ b ∈ (run ops).accounts, 0 ≤ b.balance)
    ∧ (amount = a.balance →
        ∃ db' res, withdraw (run ops) num amount d = .ok (db', res)
          ∧ get_account db' num = some { a with balance := 0 }) := by
  have hle : ¬ amount ≤ 0 := not_le.mpr hpos
  have hacc' : (run ops).accounts.find? (fun x => x.account_number == num) = some a := hacc
  refine ⟨?_, ?_, ?_, ?_, ?_⟩
  · by_cases hb : a.balance < amount
    · simp [withdraw, hle, hacc, hb]
    · simp [withdraw, hle, hacc, hb]
  · intro hb
    simp [step, withdraw, hle, hacc, hb]
  · intro hb
    refine ⟨appliedDB (run ops) num a "withdrawal" amount (a.balance - amount)
        (if d = "" then "Withdrawal" else d),
      [("account_number", Value.str num), ("transaction_type", Value.str "withdrawal"),
       ("amount", Value.rat amount), ("new_balance", Value.rat (a.balance - amount))],
      ?_, ?_⟩
    · simp [withdraw, hle, hacc, hb, appliedDB]
    · exact find?_map_updBal _ hacc'
  · exact fun b hb => (LedgerInv_run ops).nonneg b hb
  · intro heq
    subst heq
    have hb : ¬ a.balance < a.balance := lt_irrefl _
    refine ⟨appliedDB (run ops) num a "withdrawal" a.balance (a.balance - a.balance)
        (if d = "" then "Withdrawal" else d),
      [("account_number", Value.str num), ("transaction_type", Value.str "withdrawal"),
       ("amount", Value.rat a.balance),
       ("new_balance", Value.rat (a.balance - a.balance))],
      ?_, ?_⟩
    · simp [withdraw, hle, hacc, hb, appliedDB]
    · have hfind := find?_map_updBal (a.balance - a.balance) hacc'
      have hzero : a.balance - a.balance = 0 := sub_self _
      rw [← hzero]
      exact hfind

/-- Witness for C1 at Scenario 2: withdrawing 1000 from Alice's account
(balance 70) fails with InsufficientFunds and leaves the store unchanged. -/
theorem C1_withdraw_safety_witness :
    (withdraw (run ops0) "123456" 1000 "" = .error "Insufficient funds")
    ∧ step (run ops0) (.withdraw "123456" 1000 "") = run ops0 :=
  have h := C1_withdraw_safety ops0 "123456" 1000 "" alice70
    (by with_unfolding_all decide) (by with_unfolding_all decide)
  ⟨h.1.mpr (by with_unfolding_all decide), h.2.1 (by with_unfolding_all decide)⟩

/-- Claim C10: for `deposit` and `withdraw` the amount validation precedes
the account-existence check: with amount ≤ 0 the call fails with the
"must be positive" InvalidArgument message for every identifier (in
particular one that does not resolve), never with the unknown-account
error, and the store is unchanged. -/
theorem C10_amount_check_first (db : DB) (num : String) (amount : Rat) (d : String)
    (h : amount ≤ 0) :
    deposit db num amount d = .error "Deposit amount must be positive"
    ∧ withdraw db num amount d = .error "Withdrawal amount must be positive"
    ∧ step db (.deposit num amount d) = db
    ∧ step db (.withdraw num amount d) = db := by
  refine ⟨?_, ?_, ?_, ?_⟩ <;> simp [deposit, withdraw, step, h]

/-- Witness for C10: depositing or withdrawing -5 on the unknown identifier
999999 fails with the amount message, not the unknown-account one, and the
fresh store is unchanged. -/
theorem C10_amount_check_first_witness :
    get_account emptyDB "999999" = none
    ∧ deposit emptyDB "999999" (-5) "" = .error "Deposit amount must be positive"
    ∧ withdraw emptyDB "999999" (-5) "" = .error "Withdrawal amount must be positive"
    ∧ step emptyDB (.deposit "999999" (-5) "") = emptyDB
    ∧ step emptyDB (.withdraw "999999" (-5) "") = emptyDB :=
  have h := C10_amount_check_first emptyDB "999999" (-5) "" (by with_unfolding_all decide)
  ⟨rfl, h.1, h.2.1, h.2.2.1, h.2.2.2⟩

/-- Claim C4: an identifier collision during creation is retried internally
by moving to the next candidate, invisibly to the caller; `create_account`
never surfaces a duplicate-identifier failure (its only errors are the five
validation messages); and no two accounts in any reachable store share an
account number. -/
theorem C4_identifier_uniqueness :
    (∀ (c : String) (cands : List String) (db : DB),
        (∃ a ∈ db.accounts, a.account_number = c) →
        generate_account_number (c :: cands) db = generate_account_number cands db)
    ∧ (∀ (cands : List String) (db : DB) (number : String),
        generate_account_number cands db = some number →
        number ∈ cands ∧ ∀ a ∈ db.accounts, a.account_number ≠ number)
    ∧ (∀ ops : List Op, ((run ops).accounts.map Account.account_number).Nodup)
    ∧ (∀ (cands : List String) (db : DB) (fn ln ty cur : String) (init : Rat) (e : String),
        create_account cands db fn ln ty cur init = some (.error e) →
        e = "First name is required" ∨ e = "Last name is required"
        ∨ e = "Account type must be \x27checking\x27 or \x27savings\x27"
        ∨ e = "Invalid currency: " ++ cur ∨ e = "Initial deposit cannot be negative") := by
  refine ⟨?_, ?_, ?_, ?_⟩
  · rintro c cands db ⟨a, ha, hac⟩
    have hsome : (db.accounts.find? (fun x => x.account_number == c)).isNone = false := by
      cases hf : db.accounts.find? (fun x => x.account_number == c) with
      | none =>
        rw [List.find?_eq_none] at hf
        exact absurd (by simpa using hac) (hf a ha)
      | some b => rfl
    simp [generate_account_number, List.find?, hsome]
  · intro cands db number h
    exact ⟨generate_mem h, generate_fresh h⟩
  · intro ops
    exact (LedgerInv_run ops).nums_nodup
  · intro cands db fn ln ty cur init e h
    by_cases h1 : (fn = "" ∨ fn.trim = "")
    · simp [create_account, h1] at h
      exact Or.inl h.symm
    by_cases h2 : (ln = "" ∨ ln.trim = "")
    · simp [create_account, h1, h2] at h
      exact Or.inr (Or.inl h.symm)
    by_cases h3 : (ty = "checking" ∨ ty = "savings")
    case neg =>
      simp [create_account, h1, h2, h3] at h
      exact Or.inr (Or.inr (Or.inl h.symm))
    by_cases h4 : is_valid_currency cur = true
    case neg =>
      simp [create_account, h1, h2, h3, h4] at h
      exact Or.inr (Or.inr (Or.inr (Or.inl h.symm)))
    by_cases h5 : init < 0
    · simp [create_account, h1, h2, h3, h4, h5] at h
      exact Or.inr (Or.inr (Or.inr (Or.inr h.symm)))
    cases hg : generate_account_number cands db with
    | none => simp [create_account, h1, h2, h3, h4, h5, hg] at h
    | some number =>
      rw [create_account_eq_ok h1 h2 h3 h4 h5 hg] at h
      simp at h

/-- Witness for C4: with the store already holding account 123456, the
generator skips the colliding candidate 123456 and behaves as if only the
fresh candidates had been drawn; Scenario 1's store has pairwise-distinct
account numbers. -/
theorem C4_identifier_uniqueness_witness :
    generate_account_number ["123456", "654321"]
        (run [.create ["123456"] "Alice" "Lee" "checking" "USD" 0])
      = generate_account_number ["654321"]
        (run [.create ["123456"] "Alice" "Lee" "checking" "USD" 0])
    ∧ ((run ops0).accounts.map Account.account_number).Nodup :=
  ⟨C4_identifier_uniqueness.1 "123456" ["654321"]
      (run [.create ["123456"] "Alice" "Lee" "checking" "USD" 0])
      (by with_unfolding_all decide),
   C4_identifier_uniqueness.2.2.1 ops0⟩

/-- Claim C5: `create_account` fails with an InvalidArgument `ValueError`
whenever a name is empty after trimming, the category is outside
{checking, savings}, the currency does not resolve, or the initial deposit
is negative — and on any such failure no account row and no transaction is
written: the store is exactly as before the call. -/
theorem C5_create_validation (cands : List String) (db : DB)
    (fn ln ty cur : String) (init : Rat)
    (h : fn.trim = "" ∨ ln.trim = "" ∨ ¬ (ty = "checking" ∨ ty = "savings")
         ∨ is_valid_currency cur = false ∨ init < 0) :
    (∃ e, create_account cands db fn ln ty cur init = some (.error e))
    ∧ step db (.create cands fn ln ty cur init) = db := by
  by_cases h1 : (fn = "" ∨ fn.trim = "")
  · exact ⟨⟨"First name is required", by simp [create_account, h1]⟩,
      by simp [step, create_account, h1]⟩
  by_cases h2 : (ln = "" ∨ ln.trim = "")
  · exact ⟨⟨"Last name is required", by simp [create_account, h1, h2]⟩,
      by simp [step, create_account, h1, h2]⟩
  by_cases h3 : (ty = "checking" ∨ ty = "savings")
  case neg =>
    exact ⟨⟨"Account type must be \x27checking\x27 or \x27savings\x27",
        by simp [create_account, h1, h2, h3]⟩,
      by simp [step, create_account, h1, h2, h3]⟩
  by_cases h4 : is_valid_currency cur = true
  case neg =>
    exact ⟨⟨"Invalid currency: " ++ cur, by simp [create_account, h1, h2, h3, h4]⟩,
      by simp [step, create_account, h1, h2, h3, h4]⟩
  by_cases h5 : init < 0
  · exact ⟨⟨"Initial deposit cannot be negative",
        by simp [create_account, h1, h2, h3, h4, h5]⟩,
      by simp [step, create_account, h1, h2, h3, h4, h5]⟩
  exfalso
  rcases h with h | h | h | h | h
  · exact h1 (Or.inr h)
  · exact h2 (Or.inr h)
  · exact h h3
  · rw [h4] at h
    simp at h
  · exact h5 h

/-- Witness for C5 at Scenario 3: creating an account with the unknown
currency ZZZ fails and writes nothing to the fresh store. -/
theorem C5_create_validation_witness :
    (∃ e, create_account ["123456"] emptyDB "Alice" "Lee" "checking" "ZZZ" 0
        = some (.error e))
    ∧ step emptyDB (.create ["123456"] "Alice" "Lee" "checking" "ZZZ" 0) = emptyDB :=
  C5_create_validation ["123456"] emptyDB "Alice" "Lee" "checking" "ZZZ" 0
    (by with_unfolding_all decide)

/-- Claim C6: a successful `create_account` with initial deposit > 0 writes
exactly one transaction — kind `deposit`, amount and `balance_after` both
the initial deposit, description "Initial deposit" — and the new account's
balance is the initial deposit; with initial deposit 0 it writes no
transaction and the balance is 0. -/
theorem C6_initial_deposit (cands : List String) (db : DB) (fn ln ty cur : String)
    (init : Rat) (number : String)
    (h1 : ¬ (fn = "" ∨ fn.trim = "")) (h2 : ¬ (ln = "" ∨ ln.trim = ""))
    (h3 : ty = "checking" ∨ ty = "savings") (h4 : is_valid_currency cur = true)
    (h5 : ¬ init < 0) (hg : generate_account_number cands db = some number) :
    ∃ db' res a, create_account cands db fn ln ty cur init = some (.ok (db', res))
      ∧ db'.accounts = db.accounts ++ [a]
      ∧ a.balance = init ∧ a.account_number = number
      ∧ (0 < init → db'.transactions = db.transactions ++
          [{ id := db.nextTxnId, account_id := a.id, transaction_type := "deposit",
             amount := init, balance_after := init, description := "Initial deposit",
             created_at := db.clock + 1 }])
      ∧ (¬ 0 < init → db'.transactions = db.transactions) := by
  refine ⟨_, _, newAccount db number fn ln ty cur init,
    create_account_eq_ok h1 h2 h3 h4 h5 hg, rfl, rfl, rfl, ?_, ?_⟩
  · intro h0
    simp [createdDB, initDepositTxns, h0, newAccount]
  · intro h0
    simp [createdDB, initDepositTxns, h0]

/-- Witness for C6: creating (Alice, Lee, checking, USD, 100) on a fresh
store records exactly the initial-deposit transaction and a balance of
100. -/
theorem C6_initial_deposit_witness :
    ∃ db' res a, create_account ["123456"] emptyDB "Alice" "Lee" "checking" "USD" 100
        = some (.ok (db', res))
      ∧ db'.accounts = emptyDB.accounts ++ [a]
      ∧ a.balance = 100 ∧ a.account_number = "123456"
      ∧ (0 < (100 : Rat) → db'.transactions = emptyDB.transactions ++
          [{ id := emptyDB.nextTxnId, account_id := a.id, transaction_type := "deposit",
             amount := 100, balance_after := 100, description := "Initial deposit",
             created_at := emptyDB.clock + 1 }])
      ∧ (¬ 0 < (100 : Rat) → db'.transactions = emptyDB.transactions) :=
  C6_initial_deposit ["123456"] emptyDB "Alice" "Lee" "checking" "USD" 100 "123456"
    (by with_unfolding_all decide) (by with_unfolding_all decide) (Or.inl rfl)
    (by decide) (by with_unfolding_all decide) rfl

/-- Claim C7: `get_transactions` returns the account's transactions ordered
most recent first, at most `limit` of them; and after Scenario 1
(create with 0, deposit 100, withdraw 30) it returns the withdrawal of 30
with balance 70 followed by the deposit of 100 with balance 100. -/
theorem C7_list_transactions :
    (∀ (ops : List Op) (num : String) (limit : Nat),
        get_transactions (run ops) num limit
          = (txnsByNumber (run ops) num).reverse.take limit
        ∧ (get_transactions (run ops) num limit).length ≤ limit
        ∧ (get_transactions (run ops) num limit).Pairwise
            (fun t u => u.created_at < t.created_at))
    ∧ get_transactions (run ops0) "123456" 10 =
        [{ id := 2, account_id := 1, transaction_type := "withdrawal", amount := 30,
           balance_after := 70, description := "Withdrawal", created_at := 3 },
         { id := 1, account_id := 1, transaction_type := "deposit", amount := 100,
           balance_after := 100, description := "Deposit", created_at := 2 }] := by
  constructor
  · intro ops num limit
    refine ⟨get_transactions_eq (LedgerInv_run ops) num limit, ?_,
      get_transactions_sorted (LedgerInv_run ops) num limit⟩
    rw [get_transactions_eq (LedgerInv_run ops) num limit]
    exact List.length_take_le limit _
  · with_unfolding_all decide

/-- Claim C8 counterexample: the dictionary a successful `create_account`
returns has exactly the keys id, account_number, first_name, last_name,
account_type, currency and balance — the creation timestamp (`created_at`)
is not among them, although the claim says the returned snapshot includes
it.  (`get_account` does return `created_at`; the creation result does
not.) -/
theorem C8_counterexample :
    createResultKeys (create_account ["123456"] emptyDB "Alice" "Lee" "checking" "USD" 0)
      = some ["id", "account_number", "first_name", "last_name", "account_type",
              "currency", "balance"]
    ∧ "created_at" ∉ ["id", "account_number", "first_name", "last_name", "account_type",
              "currency", "balance"] := by
  with_unfolding_all decide

/-- Claim C8 (amended): a successful `create_account` returns a snapshot
holding the assigned identifier (the public account number and the internal
row id) together with names, category, currency and balance — but not the
creation timestamp, which is only stored in the accounts table. -/
theorem C8_snapshot_keys (cands : List String) (db : DB) (fn ln ty cur : String)
    (init : Rat) (number : String)
    (h1 : ¬ (fn = "" ∨ fn.trim = "")) (h2 : ¬ (ln = "" ∨ ln.trim = ""))
    (h3 : ty = "checking" ∨ ty = "savings") (h4 : is_valid_currency cur = true)
    (h5 : ¬ init < 0) (hg : generate_account_number cands db = some number) :
    ∃ db' res, create_account cands db fn ln ty cur init = some (.ok (db', res))
      ∧ res.map Prod.fst = ["id", "account_number", "first_name", "last_name",
          "account_type", "currency", "balance"]
      ∧ ("account_number", Value.str number) ∈ res
      ∧ ("id", Value.int db.nextAccountId) ∈ res
      ∧ ("balance", Value.rat init) ∈ res
      ∧ "created_at" ∉ res.map Prod.fst := by
  refine ⟨_, _, create_account_eq_ok h1 h2 h3 h4 h5 hg, ?_, ?_, ?_, ?_, ?_⟩ <;>
    simp [createdRes]

/-- Witness for the amended C8 at a concrete creation. -/
theorem C8_snapshot_keys_witness :
    ∃ db' res, create_account ["123456"] emptyDB "Alice" "Lee" "checking" "USD" 0
        = some (.ok (db', res))
      ∧ res.map Prod.fst = ["id", "account_number", "first_name", "last_name",
          "account_type", "currency", "balance"]
      ∧ ("account_number", Value.str "123456") ∈ res
      ∧ ("id", Value.int emptyDB.nextAccountId) ∈ res
      ∧ ("balance", Value.rat 0) ∈ res
      ∧ "created_at" ∉ res.map Prod.fst :=
  C8_snapshot_keys ["123456"] emptyDB "Alice" "Lee" "checking" "USD" 0 "123456"
    (by with_unfolding_all decide) (by with_unfolding_all decide) (Or.inl rfl)
    (by decide) (by with_unfolding_all decide) rfl

/-- Claim C9 counterexample: two currency entries that agree in every
display attribute (name and symbol) and differ only in their code are
rendered with different symbol placement, so the placement rule is the
global `code == "USD"` special case inside `format_amount`, not a placement
flag carried by the entry — `Currency` has no such field. -/
theorem C9_counterexample :
    Currency.format_amount ⟨"USD", "US Dollars", "BB"⟩ 1000 = "BB1,000.00"
    ∧ Currency.format_amount ⟨"BB", "US Dollars", "BB"⟩ 1000 = "1,000.00 BB" := by
  with_unfolding_all decide

/-- Claim C9 (amended): `format_amount` renders with two decimal places and
thousands grouping; the symbol is prefixed exactly when the currency's code
is the literal "USD" (a global special case in `format_amount`) and
suffixed for every other code; the registered currencies render as
"$1,000.00" and "1,000.00 BB". -/
theorem C9_formatting :
    (∀ (c : Currency) (amount : Rat),
        (c.code = "USD" → c.format_amount amount = c.symbol ++ formatFixed2 amount)
        ∧ (c.code ≠ "USD" → c.format_amount amount = formatFixed2 amount ++ " " ++ c.symbol))
    ∧ formatFixed2 1000 = "1,000.00"
    ∧ formatFixed2 (1234567 + 89/100) = "1,234,567.89"
    ∧ get_currency "USD" = .ok ⟨"USD", "US Dollars", "$"⟩
    ∧ get_currency "BB" = .ok ⟨"BB", "BrainBucks", "BB"⟩
    ∧ Currency.format_amount ⟨"USD", "US Dollars", "$"⟩ 1000 = "$1,000.00"
    ∧ Currency.format_amount ⟨"BB", "BrainBucks", "BB"⟩ 1000 = "1,000.00 BB" := by
  refine ⟨?_, ?_, ?_, rfl, rfl, ?_, ?_⟩
  · intro c amount
    constructor
    · intro h
      simp [Currency.format_amount, h]
    · intro h
      simp [Currency.format_amount, h]
  · with_unfolding_all decide
  · with_unfolding_all decide
  · with_unfolding_all decide
  · with_unfolding_all decide

/-- Witness for the amended C9 at the two registered currencies. -/
theorem C9_formatting_witness :
    Currency.format_amount ⟨"USD", "US Dollars", "$"⟩ 1000 = "$" ++ formatFixed2 1000
    ∧ Currency.format_amount ⟨"BB", "BrainBucks", "BB"⟩ 1000
        = formatFixed2 1000 ++ " " ++ "BB" :=
  ⟨(C9_formatting.1 ⟨"USD", "US Dollars", "$"⟩ 1000).1 rfl,
   (C9_formatting.1 ⟨"BB", "BrainBucks", "BB"⟩ 1000).2 (by decide)⟩
